import Mathlib

/-!
Shallow embedding of `src/snake.py` (ramavaditya/snake-game).

The game state and the per-tick update of `SnakeGame.run` are translated
into pure Lean functions.  Python integers become `Int`; Python's `%` on a
positive modulus agrees with `Int.emod` (both are non-negative), so `%` on
`Int` models the wrap-around arithmetic exactly.  The pygame event batch of
one loop iteration becomes a `List Key`; `random.randint` becomes an
ambient candidate stream `Nat → Position` consumed index by index, and the
unbounded `while True` rejection loop of `spawn_food` is exposed through an
explicit fuel parameter (`none` = the loop has not terminated within the
given number of iterations).
-/

/-- Window width in pixels (`WINDOW_W = 640`). -/
def WINDOW_W : Int := 640

/-- Window height in pixels (`WINDOW_H = 480`). -/
def WINDOW_H : Int := 480

/-- Size of one snake cell in pixels (`CELL_SIZE = 20`). -/
def CELL_SIZE : Int := 20

/-- A board cell `(row, col)`, as in `Position = Tuple[int, int]`. -/
abbrev Position : Type := Int × Int

/-- Number of grid rows, `WINDOW_H // CELL_SIZE` (= 24). -/
def rows : Int := WINDOW_H / CELL_SIZE

/-- Number of grid columns, `WINDOW_W // CELL_SIZE` (= 32). -/
def cols : Int := WINDOW_W / CELL_SIZE

/-- The mutable fields of `SnakeGame` that the tick update touches:
`self.snake` (head is the LAST element), `self.direction` (dy, dx),
`self.food`, `self.score`. -/
structure GameState where
  snake : List Position
  direction : Position
  food : Option Position
  score : Nat
deriving DecidableEq

/-- Outcome of one iteration of the main loop: the loop keeps `running`
(`Continue`) or stops because of a self-collision (`GameOver`). -/
inductive TickResult
  | Continue
  | GameOver
deriving DecidableEq

/-- The rejection-sampling loop of `SnakeGame.spawn_food`, lines 67-74:
candidates `stream i, stream (i+1), …` are drawn until one is not in
`snake`.  `fuel` bounds how many iterations we unroll; the Python loop has
no such bound, so `none` means the loop is still running after `fuel`
draws. -/
def spawn_food (stream : Nat → Position) (snake : List Position) :
    Nat → Nat → Option Position
  | _, 0 => none
  | i, fuel + 1 =>
    if stream i ∈ snake then spawn_food stream snake (i + 1) fuel
    else some (stream i)

/-- Lines 108-112 of `SnakeGame.run`: the wrapped new head
`((snake[-1][0] + dir[0]) % rows, (snake[-1][1] + dir[1]) % cols)`;
`none` when the snake is empty (where Python's `snake[-1]` would raise). -/
def new_head_of (st : GameState) : Option Position :=
  st.snake.getLast?.map fun hd =>
    ((hd.1 + st.direction.1) % rows, (hd.2 + st.direction.2) % cols)

/-- One iteration of the movement/eat part of `SnakeGame.run` (lines
106-129), after the event handling has fixed the direction: compute the
wrapped new head; if it hits the snake stop with `GameOver` (state
untouched); otherwise append it, then either eat (`score += 1`, respawn
food, tail kept) or pop the tail.  `none` only when the snake is empty or
the food-respawn loop fails to terminate within `fuel` draws. -/
def tick (stream : Nat → Position) (fuel : Nat) (st : GameState) :
    Option (GameState × TickResult) :=
  match new_head_of st with
  | none => none
  | some nh =>
    if nh ∈ st.snake then
      some (st, TickResult.GameOver)
    else
      match st.food with
      | some f =>
        if nh = f then
          match spawn_food stream (st.snake ++ [nh]) 0 fuel with
          | none => none
          | some nf =>
            some ({ st with snake := st.snake ++ [nh], food := some nf,
                            score := st.score + 1 }, TickResult.Continue)
        else
          some ({ st with snake := (st.snake ++ [nh]).tail }, TickResult.Continue)
      | none =>
        some ({ st with snake := (st.snake ++ [nh]).tail }, TickResult.Continue)

/-- A keydown event as the direction handler of `SnakeGame.run` sees it:
one of the four arrow keys, or any other key (`new_dir = None`). -/
inductive Key
  | up
  | down
  | left
  | right
  | other
deriving DecidableEq

/-- Lines 90-99: the absolute direction an arrow key requests. -/
def key_dir : Key → Option Position
  | Key.up => some (-1, 0)
  | Key.down => some (1, 0)
  | Key.left => some (0, -1)
  | Key.right => some (0, 1)
  | Key.other => none

/-- Lines 101-104: a single keydown updates `self.direction` unless the
requested direction is the exact inverse of the current one
(`new_dir + direction == (0, 0)`). -/
def handle_key (dir : Position) (k : Key) : Position :=
  match key_dir k with
  | none => dir
  | some nd => if (nd.1 + dir.1, nd.2 + dir.2) ≠ ((0 : Int), (0 : Int)) then nd else dir

/-- Lines 84-104: the whole event batch of one loop iteration is folded
over `handle_key`, each keydown overwriting the direction in order. -/
def handle_events (dir : Position) (evs : List Key) : Position :=
  evs.foldl handle_key dir

/-- One full iteration of the main loop: process the event batch, then
move.  (A pygame `QUIT` event only clears `running` and is irrelevant to
the state fields, so it is not modelled here.) -/
def loop_step (stream : Nat → Position) (fuel : Nat) (st : GameState)
    (evs : List Key) : Option (GameState × TickResult) :=
  tick stream fuel { st with direction := handle_events st.direction evs }

/-- The four unit directions the game ever assigns to `self.direction`. -/
def unit_dirs : List Position := [(-1, 0), (1, 0), (0, -1), (0, 1)]

/-- What a read of `highscore.json` can come back as: the three failure
modes that raise inside the `try` of `load_highscore` (missing file,
unreadable file, malformed JSON or a score field `int()` chokes on), or a
parsed record whose `name`/`score` fields may each be absent. -/
inductive StoreState
  | missing
  | unreadable
  | malformed
  | valid (name : Option String) (score : Option Int)

/-- `SnakeGame.load_highscore`, lines 185-192: any exception yields the
sentinel `("---", 0)`; a parsed record is read with
`data.get("name", "---")` and `int(data.get("score", 0))`.  The function
is total: no failure mode propagates to the caller. -/
def load_highscore : StoreState → String × Int
  | StoreState.missing | StoreState.unreadable | StoreState.malformed => ("---", 0)
  | StoreState.valid n s => (n.getD "---", s.getD 0)

/-- An event as `SnakeGame.handle_game_over` sees it: quit, Enter,
Backspace, a keydown whose `unicode` is a single printable character, or
any other key (ignored). -/
inductive GOEvent
  | quit
  | enter
  | backspace
  | char (c : Char)
  | other
deriving DecidableEq

/-- How the name-entry loop ends: aborted by a quit event (no save),
finished via Enter (with the final name), or still waiting because the
modelled event list ran out. -/
inductive GOOutcome
  | aborted
  | finished (name : String)
  | waiting
deriving DecidableEq

/-- `SnakeGame.handle_game_over`, lines 203-227: consume events in order;
`quit` returns immediately, `enter` substitutes "Player" for an empty
buffer and calls `save_highscore` exactly when `score > highscore_score`,
backspace drops the buffer's last character, a printable character is
appended.  The second component records every `save_highscore(name, score)`
call the run performs. -/
def handle_game_over (score hs : Int) :
    String → List GOEvent → GOOutcome × List (String × Int)
  | _, [] => (GOOutcome.waiting, [])
  | _, GOEvent.quit :: _ => (GOOutcome.aborted, [])
  | name, GOEvent.enter :: _ =>
    let n := if name = "" then "Player" else name
    if hs < score then (GOOutcome.finished n, [(n, score)])
    else (GOOutcome.finished n, [])
  | name, GOEvent.backspace :: rest =>
    handle_game_over score hs (name.dropRight 1) rest
  | name, GOEvent.char c :: rest =>
    handle_game_over score hs (name.push c) rest
  | name, GOEvent.other :: rest => handle_game_over score hs name rest

/-- The starting state of the spec's C2 scenario: 32×24 grid, snake
`[(12,15),(12,16),(12,17)]` (head last), direction right, food `(12,18)`,
score 0. -/
def scenario_st : GameState :=
  ⟨[(12, 15), (12, 16), (12, 17)], (0, 1), some (12, 18), 0⟩

/-- The state the code actually reaches from `scenario_st` in one tick when
the first food candidate drawn is `(0, 0)`: the eaten tick keeps the tail,
so the snake has FOUR cells. -/
def scenario_st' : GameState :=
  ⟨[(12, 15), (12, 16), (12, 17), (12, 18)], (0, 1), some (0, 0), 1⟩

/-- Concrete eating-tick input for the C1 witness. -/
def eat_st : GameState := ⟨[(0, 0), (0, 1)], (0, 1), some (0, 2), 5⟩

/-- State `eat_st` reaches in one tick with candidate stream `(5,5), …`. -/
def eat_st' : GameState := ⟨[(0, 0), (0, 1), (0, 2)], (0, 1), some (5, 5), 6⟩

/-- A snake curled into a 2×2 loop about to move onto its own tail cell
`(0,0)`: head `(1,0)`, direction up. -/
def loop_st : GameState :=
  ⟨[(0, 0), (0, 1), (1, 1), (1, 0)], (-1, 0), some (9, 9), 0⟩

/-- A snake whose head sits at the last column, moving right: the next head
wraps to column 0. -/
def wrap_st : GameState := ⟨[(3, 30), (3, 31)], (0, 1), some (9, 9), 0⟩

/-- State `wrap_st` reaches in one tick: head wrapped to `(3, 0)`. -/
def wrap_st' : GameState := ⟨[(3, 31), (3, 0)], (0, 1), some (9, 9), 0⟩

/-- The spec's C6 scenario state: snake `[(5,5),(5,6),(5,7)]`, moving
right. -/
def rev_st : GameState := ⟨[(5, 5), (5, 6), (5, 7)], (0, 1), some (9, 9), 0⟩

/-- State `rev_st` reaches one tick after an ignored reversal keypress:
still moving right. -/
def rev_st' : GameState := ⟨[(5, 6), (5, 7), (5, 8)], (0, 1), some (9, 9), 0⟩

/-- A state whose very next head cell `(0,0)` is already snake body:
head `(0,1)` moving left. -/
def crash_st : GameState := ⟨[(0, 0), (0, 1)], (0, -1), some (9, 9), 3⟩

/-!  Helper lemmas shared by the claim theorems. -/

/-- The rejection loop can only return a cell that is not on the snake. -/
theorem spawn_food_not_mem (stream : Nat → Position) (s : List Position) :
    ∀ fuel i nf, spawn_food stream s i fuel = some nf → nf ∉ s := by
  intro fuel
  induction fuel with
  | zero => intro i nf h; simp [spawn_food] at h
  | succ n ih =>
    intro i nf h
    rw [spawn_food] at h
    by_cases hc : stream i ∈ s
    · rw [if_pos hc] at h
      exact ih (i + 1) nf h
    · rw [if_neg hc] at h
      obtain rfl : stream i = nf := Option.some.inj h
      exact hc

/-- A tick never changes the direction field. -/
theorem tick_direction (stream : Nat → Position) (fuel : Nat)
    (st st' : GameState) (r : TickResult)
    (h : tick stream fuel st = some (st', r)) :
    st'.direction = st.direction := by
  unfold tick at h
  split at h
  · cases h
  · split at h
    · cases h; rfl
    · split at h
      · split at h
        · split at h
          · cases h
          · cases h; rfl
        · cases h; rfl
      · cases h; rfl

/-- Appending a cell and then popping the front of a nonempty list leaves
the appended cell as the last element. -/
theorem tail_append_getLast {α : Type _} (l : List α) (a : α) (h : l ≠ []) :
    ((l ++ [a]).tail).getLast? = some a := by
  cases l with
  | nil => exact absurd rfl h
  | cons x xs => exact List.getLast?_concat xs

/-- A tick that reports `GameOver` returns the state unchanged. -/
theorem tick_gameover_frame (stream : Nat → Position) (fuel : Nat)
    (st st' : GameState)
    (h : tick stream fuel st = some (st', TickResult.GameOver)) :
    st' = st := by
  unfold tick at h
  split at h
  · cases h
  · split at h
    · cases h; rfl
    · split at h
      · split at h
        · split at h
          · cases h
          · cases h
        · cases h
      · cases h

/-- C1: on a tick that does not end the game, if the new head equals the
food cell then the score increases by exactly 1, the snake grows by exactly
one cell (the tail is kept), and the respawned food is not inside the
post-eat snake body; otherwise the tail cell is removed and the snake
length is unchanged (and the score is unchanged). -/
theorem C1_eat_grows_else_translates (stream : Nat → Position) (fuel : Nat)
    (st st' : GameState) (nh : Position)
    (hnh : new_head_of st = some nh)
    (h : tick stream fuel st = some (st', TickResult.Continue)) :
    (st.food = some nh →
      st'.score = st.score + 1
      ∧ st'.snake.length = st.snake.length + 1
      ∧ ∃ nf, st'.food = some nf ∧ nf ∉ st'.snake)
    ∧ (st.food ≠ some nh →
      st'.snake = (st.snake ++ [nh]).tail
      ∧ st'.snake.length = st.snake.length
      ∧ st'.score = st.score) := by
  simp only [tick, hnh] at h
  by_cases hcol : nh ∈ st.snake
  · rw [if_pos hcol] at h
    cases h
  · rw [if_neg hcol] at h
    cases hf : st.food with
    | none =>
      simp only [hf] at h
      cases h
      refine ⟨fun he => absurd he (by simp), fun _ => ⟨rfl, ?_, rfl⟩⟩
      simp [List.length_tail]
    | some f =>
      simp only [hf] at h
      by_cases he : nh = f
      · rw [if_pos he] at h
        cases hsf : spawn_food stream (st.snake ++ [nh]) 0 fuel with
        | none =>
          simp only [hsf] at h
          cases h
        | some nf =>
          simp only [hsf] at h
          cases h
          refine ⟨fun _ => ⟨rfl, by simp, nf, rfl, ?_⟩, fun hne => ?_⟩
          · exact spawn_food_not_mem stream _ fuel 0 nf hsf
          · exact absurd (by rw [he]) hne
      · rw [if_neg he] at h
        cases h
        refine ⟨fun heq => ?_, fun _ => ⟨rfl, ?_, rfl⟩⟩
        · exact absurd (Option.some.inj heq).symm he
        · simp [List.length_tail]

/-- C1 witness: the concrete eating tick from `eat_st` with candidate
stream constantly `(5,5)`. -/
theorem C1_witness :
    eat_st'.score = eat_st.score + 1
    ∧ eat_st'.snake.length = eat_st.snake.length + 1
    ∧ ∃ nf, eat_st'.food = some nf ∧ nf ∉ eat_st'.snake :=
  (C1_eat_grows_else_translates (fun _ => (5, 5)) 1 eat_st eat_st' (0, 2)
    (by decide) (by decide)).1 rfl

/-- C2 counterexample: from the spec's scenario state, the code yields the
FOUR-cell snake `[(12,15),(12,16),(12,17),(12,18)]` (the eaten tick keeps
the tail), not the three-cell snake `[(12,16),(12,17),(12,18)]` the spec
writes. -/
theorem C2_cex :
    tick (fun _ => ((0 : Int), (0 : Int))) 1 scenario_st
      = some (scenario_st', TickResult.Continue)
    ∧ scenario_st'.snake ≠ [(12, 16), (12, 17), (12, 18)] := by
  constructor
  · decide
  · decide

/-- C2 (amended): from the scenario state, one tick yields the snake
`[(12,15),(12,16),(12,17),(12,18)]` (length 4 — the tail is kept because
food was eaten), score 1, food relocated to a cell outside the new snake,
and the game continues. -/
theorem C2_scenario (stream : Nat → Position) (fuel : Nat)
    (st' : GameState) (r : TickResult)
    (h : tick stream fuel scenario_st = some (st', r)) :
    st'.snake = [(12, 15), (12, 16), (12, 17), (12, 18)]
    ∧ st'.score = 1
    ∧ r = TickResult.Continue
    ∧ ∃ nf, st'.food = some nf ∧ nf ∉ st'.snake := by
  have h1 : new_head_of scenario_st = some ((12 : Int), (18 : Int)) := by decide
  simp only [tick, h1] at h
  rw [if_neg (by decide : ((12 : Int), (18 : Int)) ∉ scenario_st.snake)] at h
  have h2 : scenario_st.food = some ((12 : Int), (18 : Int)) := rfl
  simp only [h2, if_true] at h
  cases hsf : spawn_food stream (scenario_st.snake ++ [((12 : Int), (18 : Int))]) 0 fuel with
  | none =>
    simp only [hsf] at h
    cases h
  | some nf =>
    simp only [hsf] at h
    cases h
    refine ⟨?_, rfl, rfl, nf, rfl, ?_⟩
    · rfl
    · exact spawn_food_not_mem stream _ fuel 0 nf hsf

/-- C2 witness: the amended scenario evaluated with the candidate stream
constantly `(0,0)`. -/
theorem C2_witness :
    scenario_st'.snake = [(12, 15), (12, 16), (12, 17), (12, 18)]
    ∧ scenario_st'.score = 1
    ∧ TickResult.Continue = TickResult.Continue
    ∧ ∃ nf, scenario_st'.food = some nf ∧ nf ∉ scenario_st'.snake :=
  C2_scenario (fun _ => ((0 : Int), (0 : Int))) 1 scenario_st'
    TickResult.Continue (by decide)

/-- C3 counterexample: while moving right `(0,1)`, the event batch
`[up, left]` ends the tick with direction `(0,-1)` = left, the exact
inverse of the previous tick's direction — each keypress was only checked
against the direction current at that moment (right → up → left), so a
double keypress within one tick reverses the snake. -/
theorem C3_cex :
    handle_events ((0 : Int), (1 : Int)) [Key.up, Key.left]
      = (-(0 : Int), -(1 : Int)) := by
  decide

/-- C3 (amended): direction events are folded strictly left-to-right, the
last event that is valid at its own processing time taking effect; a
SINGLE `handle_key` step never yields the inverse of the direction it
started from, but across a multi-event batch the tick's effective
direction can be the inverse of the previous tick's (see the
counterexample). -/
theorem C3_last_valid_event_wins :
    (∀ (d : Position) (evs : List Key) (k : Key),
      handle_events d (evs ++ [k]) = handle_key (handle_events d evs) k)
    ∧ (∀ (d : Position) (k : Key), d ∈ unit_dirs →
      handle_key d k ≠ (-d.1, -d.2)) := by
  constructor
  · intro d evs k
    simp [handle_events, List.foldl_append]
  · intro d k hd
    simp only [unit_dirs, List.mem_cons, List.not_mem_nil, or_false] at hd
    rcases hd with rfl | rfl | rfl | rfl <;> cases k <;> decide

/-- C3 witness: a left-arrow keypress while moving right does not produce
the inverse direction. -/
theorem C3_witness :
    handle_key ((0 : Int), (1 : Int)) Key.left ≠ (-(0 : Int), -(1 : Int)) :=
  C3_last_valid_event_wins.2 ((0 : Int), (1 : Int)) Key.left (by decide)

/-- C4: self-collision is tested against the snake list before the tail is
popped: a new head landing on any of the first N-1 body cells (the current
tail included) yields `GameOver` with the state untouched, while a new
head landing on a cell not occupied by the snake yields `Continue`. -/
theorem C4_pre_pop_collision (stream : Nat → Position) (fuel : Nat)
    (st : GameState) (nh : Position)
    (hnh : new_head_of st = some nh) :
    (nh ∈ st.snake.dropLast →
      tick stream fuel st = some (st, TickResult.GameOver))
    ∧ (nh ∉ st.snake → ∀ st' r, tick stream fuel st = some (st', r) →
      r = TickResult.Continue) := by
  constructor
  · intro hmem
    have hs : nh ∈ st.snake := List.dropLast_subset _ hmem
    simp only [tick, hnh]
    rw [if_pos hs]
  · intro hout st' r h
    simp only [tick, hnh] at h
    rw [if_neg hout] at h
    cases hf : st.food with
    | none =>
      simp only [hf] at h
      cases h
      rfl
    | some f =>
      simp only [hf] at h
      by_cases he : nh = f
      · rw [if_pos he] at h
        cases hsf : spawn_food stream (st.snake ++ [nh]) 0 fuel with
        | none =>
          simp only [hsf] at h
          cases h
        | some nf =>
          simp only [hsf] at h
          cases h
          rfl
      · rw [if_neg he] at h
        cases h
        rfl

/-- C4 witness: the looped snake `loop_st` moving onto its own tail cell
`(0,0)` — a cell that would be vacated this very tick — is still a
game over. -/
theorem C4_witness :
    tick (fun _ => ((0 : Int), (0 : Int))) 1 loop_st
      = some (loop_st, TickResult.GameOver) :=
  (C4_pre_pop_collision (fun _ => ((0 : Int), (0 : Int))) 1 loop_st
    ((0 : Int), (0 : Int)) (by decide)).1 (by decide)

/-- C5: movement is toroidal: a continuing tick appends exactly the head
`((hd.row + dRow) % rows, (hd.col + dCol) % cols)`; in particular a head
at column `cols - 1` moving right wraps to column 0, and a head at row
`rows - 1` moving down wraps to row 0 — never a hard wall. -/
theorem C5_toroidal_movement (stream : Nat → Position) (fuel : Nat)
    (st st' : GameState) (hd : Position)
    (hhd : st.snake.getLast? = some hd)
    (h : tick stream fuel st = some (st', TickResult.Continue)) :
    st'.snake.getLast?
      = some ((hd.1 + st.direction.1) % rows, (hd.2 + st.direction.2) % cols)
    ∧ (hd.2 = cols - 1 → st.direction = (0, 1) →
      st'.snake.getLast? = some (hd.1 % rows, 0))
    ∧ (hd.1 = rows - 1 → st.direction = (1, 0) →
      st'.snake.getLast? = some (0, hd.2 % cols)) := by
  have hne : st.snake ≠ [] := by
    intro e
    rw [e] at hhd
    cases hhd
  have hnh : new_head_of st
      = some ((hd.1 + st.direction.1) % rows, (hd.2 + st.direction.2) % cols) := by
    simp [new_head_of, hhd]
  have hmain : st'.snake.getLast?
      = some ((hd.1 + st.direction.1) % rows, (hd.2 + st.direction.2) % cols) := by
    simp only [tick, hnh] at h
    split at h
    · cases h
    · cases hf : st.food with
      | none =>
        simp only [hf] at h
        cases h
        exact tail_append_getLast st.snake _ hne
      | some f =>
        simp only [hf] at h
        split at h
        · cases hsf : spawn_food stream
            (st.snake ++ [((hd.1 + st.direction.1) % rows, (hd.2 + st.direction.2) % cols)]) 0 fuel with
          | none =>
            simp only [hsf] at h
            cases h
          | some nf =>
            simp only [hsf] at h
            cases h
            exact List.getLast?_concat _
        · cases h
          exact tail_append_getLast st.snake _ hne
  refine ⟨hmain, fun h1 h2 => ?_, fun h1 h2 => ?_⟩
  · rw [hmain, h1, h2]
    norm_num [rows, cols, WINDOW_W, WINDOW_H, CELL_SIZE]
  · rw [hmain, h1, h2]
    norm_num [rows, cols, WINDOW_W, WINDOW_H, CELL_SIZE]

/-- C5 witness: from `wrap_st` (head at column 31 = `cols - 1`, moving
right) one tick wraps the head to column 0. -/
theorem C5_witness :
    wrap_st'.snake.getLast?
      = some (((3 : Int) + wrap_st.direction.1) % rows,
              ((31 : Int) + wrap_st.direction.2) % cols)
    ∧ ((31 : Int) = cols - 1 → wrap_st.direction = (0, 1) →
      wrap_st'.snake.getLast? = some ((3 : Int) % rows, 0))
    ∧ ((3 : Int) = rows - 1 → wrap_st.direction = (1, 0) →
      wrap_st'.snake.getLast? = some (0, (31 : Int) % cols)) :=
  C5_toroidal_movement (fun _ => ((0 : Int), (0 : Int))) 1 wrap_st wrap_st'
    (3, 31) (by decide) (by decide)

/-- C6: an arrow keypress requesting the exact inverse of the current
direction is silently ignored — after the full loop iteration the
direction field is unchanged. -/
theorem C6_reversal_ignored (stream : Nat → Position) (fuel : Nat)
    (st st' : GameState) (k : Key) (nd : Position) (r : TickResult)
    (hk : key_dir k = some nd)
    (hinv : (nd.1 + st.direction.1, nd.2 + st.direction.2) = ((0 : Int), (0 : Int)))
    (h : loop_step stream fuel st [k] = some (st', r)) :
    st'.direction = st.direction := by
  have hev : handle_events st.direction [k] = st.direction := by
    simp [handle_events, handle_key, hk, hinv]
  have h' : tick stream fuel { st with direction := st.direction }
      = some (st', r) := by
    rw [loop_step, hev] at h
    exact h
  have hdir := tick_direction stream fuel _ st' r h'
  simpa using hdir

/-- C6 witness: the spec's scenario — snake `[(5,5),(5,6),(5,7)]` moving
right, a left keypress arrives — still moving right after the tick. -/
theorem C6_witness : rev_st'.direction = rev_st.direction :=
  C6_reversal_ignored (fun _ => ((0 : Int), (0 : Int))) 1 rev_st rev_st'
    Key.left (0, -1) TickResult.Continue (by decide) (by decide) (by decide)

/-- C7: across any run of the name-entry loop, `save_highscore` is called
at most once, every call it makes carries the session's final score and
happens only when that score strictly beats the loaded high score, a quit
abort never saves, and if the final score does not beat the loaded one
(e.g. loaded 10, final 7) nothing is ever saved. -/
theorem C7_save_once_and_guarded (score hs : Int) :
    ∀ (evs : List GOEvent) (name : String),
      (handle_game_over score hs name evs).2.length ≤ 1
      ∧ (∀ p ∈ (handle_game_over score hs name evs).2,
          hs < score ∧ p.2 = score)
      ∧ ((handle_game_over score hs name evs).1 = GOOutcome.aborted →
          (handle_game_over score hs name evs).2 = [])
      ∧ (¬ hs < score → (handle_game_over score hs name evs).2 = []) := by
  intro evs
  induction evs with
  | nil => intro name; simp [handle_game_over]
  | cons e rest ih =>
    intro name
    cases e with
    | quit => simp [handle_game_over]
    | enter =>
      by_cases hlt : hs < score
      · simp [handle_game_over, hlt]
      · simp [handle_game_over, hlt]
    | backspace =>
      simp only [handle_game_over]
      exact ih _
    | char c =>
      simp only [handle_game_over]
      exact ih _
    | other =>
      simp only [handle_game_over]
      exact ih _

/-- C7 witness: loaded record score 10, final score 7, Enter pressed —
no save call is made. -/
theorem C7_witness : (handle_game_over 7 10 "Ace" [GOEvent.enter]).2 = [] :=
  (C7_save_once_and_guarded 7 10 [GOEvent.enter] "Ace").2.2.2 (by decide)

/-- C8: loading the high score from missing, unreadable, or malformed
storage never propagates the failure and returns the sentinel record
`("---", 0)`. -/
theorem C8_load_failure_sentinel (s : StoreState)
    (h : s = StoreState.missing ∨ s = StoreState.unreadable
        ∨ s = StoreState.malformed) :
    load_highscore s = ("---", 0) := by
  rcases h with rfl | rfl | rfl <;> rfl

/-- C8 witness: a missing store file loads as the sentinel. -/
theorem C8_witness : load_highscore StoreState.missing = ("---", 0) :=
  C8_load_failure_sentinel StoreState.missing (Or.inl rfl)

/-- C9: the rejection loop of `spawn_food` has no termination guarantee:
fed the candidate stream that always proposes `(0,0)` while the snake is
the single cell `(0,0)`, it never produces food — no amount of fuel
suffices — even though the cell `(0,1)` (among 767 others) is free. -/
theorem C9_spawn_food_can_diverge :
    (∀ fuel i, spawn_food (fun _ => ((0 : Int), (0 : Int)))
        [((0 : Int), (0 : Int))] i fuel = none)
    ∧ ((0 : Int), (1 : Int)) ∉ [((0 : Int), (0 : Int))] := by
  constructor
  · intro fuel
    induction fuel with
    | zero => intro i; rfl
    | succ n ih =>
      intro i
      rw [spawn_food, if_pos (by decide)]
      exact ih (i + 1)
  · decide

/-- C10: a tick whose new head hits the snake ends the game with the
observable state exactly as it was: snake, score, and food are all
unchanged (whatever direction events arrived). -/
theorem C10_gameover_frame (stream : Nat → Position) (fuel : Nat)
    (st st' : GameState) (evs : List Key)
    (h : loop_step stream fuel st evs = some (st', TickResult.GameOver)) :
    st'.snake = st.snake ∧ st'.score = st.score ∧ st'.food = st.food := by
  rw [loop_step] at h
  have h2 := tick_gameover_frame stream fuel _ st' h
  subst h2
  exact ⟨rfl, rfl, rfl⟩

/-- C10 witness: `crash_st` moves its head onto its own body cell `(0,0)`;
the game ends and the state is exactly `crash_st` still. -/
theorem C10_witness :
    crash_st.snake = crash_st.snake ∧ crash_st.score = crash_st.score
    ∧ crash_st.food = crash_st.food :=
  C10_gameover_frame (fun _ => ((0 : Int), (0 : Int))) 1 crash_st crash_st []
    (by decide)
